import Mathlib

/-!
Verification of `download_images.py` (image-dow repository).

The Python source is shallowly embedded: pure helpers (`sanitize`,
`build_filename`, `strip_query`, `find_header_indices`) become Lean
functions over `List Char` / `String`; the download pipeline
(`process_excel`) becomes an explicit state-passing model.  All of the
per-item handlers (`handle_skip`, `handle_success`, `handle_fail`) run on
the main thread in the source (the workers only return tuples), so the
whole event/log stream is sequential and is modelled by a sequential
recursion; the only scheduler freedom is the order in which completed
futures are consumed (`as_completed`), modelled by an explicit completion
order list.
-/

/-! ## Filename Builder (`sanitize`, `build_filename`, lines 48-69) -/

/-- The ASCII whitespace characters matched by Python's `str.strip` and
`\s` (the source data is text, modelled over the ASCII whitespace set). -/

def isPySpace (c : Char) : Bool :=
  c = ' ' || c = '\t' || c = '\n' || c = '\r' || c = Char.ofNat 11 || c = Char.ofNat 12

/-- The characters replaced by a dash: the class `[\\/\\:*?"<>|]` of
`re.sub(r"[\\/\\:*?\"<>|]", "-", s)` (line 54). -/

def isBadChar (c : Char) : Bool :=
  c = '\\' || c = '/' || c = ':' || c = '*' || c = '?' || c = '"' || c = '<' || c = '>' || c = '|'

/-- Python `str.strip()`: drop leading and trailing whitespace. -/

def pyStrip (l : List Char) : List Char :=
  ((l.dropWhile isPySpace).reverse.dropWhile isPySpace).reverse

/-- `re.sub(r"-+", "-", s)` (line 58): collapse runs of dashes into one. -/

def collapseDashes : List Char → List Char
  | [] => []
  | [c] => [c]
  | c :: d :: rest =>
    if c = '-' && d = '-' then collapseDashes (d :: rest)
    else c :: collapseDashes (d :: rest)

/-- `sanitize` (lines 48-59) on the character list: strip surrounding
whitespace, replace forbidden filename characters by `-`, delete all
whitespace (`re.sub(r"\s+", "", s)`), then collapse dash runs.  A `None`
field becomes the empty string. -/

def sanitizeChars (t : Option String) : List Char :=
  match t with
  | none => []
  | some s =>
    collapseDashes
      (((pyStrip s.data).map (fun c => if isBadChar c then '-' else c)).filter
        (fun c => !isPySpace c))

/-- `sanitize` (lines 48-59). -/

def sanitize (t : Option String) : String :=
  String.mk (sanitizeChars t)

/-- `"-".join(cleaned)` on character lists. -/

def joinDash : List (List Char) → List Char
  | [] => []
  | [x] => x
  | x :: y :: rest => x ++ '-' :: joinDash (y :: rest)

/-- `re.sub(r"-+\.jpg$", ".jpg", name)` (line 68): if the name ends in
dashes immediately followed by `.jpg`, drop those dashes. -/

def collapseDashesBeforeExt (l : List Char) : List Char :=
  match l.reverse with
  | 'g' :: 'p' :: 'j' :: '.' :: rest =>
    ('g' :: 'p' :: 'j' :: '.' :: rest.dropWhile (fun c => c = '-')).reverse
  | _ => l

/-- `build_filename` (lines 62-69): sanitize every field, join with `-`,
append `.jpg`, strip leading dashes (`re.sub(r"^-+", "", name)`), collapse
dashes right before the extension. -/

def build_filename (fields : List (Option String)) : String :=
  String.mk
    (collapseDashesBeforeExt
      ((joinDash (fields.map sanitizeChars) ++ ".jpg".data).dropWhile (fun c => c = '-')))

/-- `strip_query` (lines 72-76): truncate the URL at the first `?`
(`url.split("?")[0]` keeps the prefix before the first `?`). -/

def strip_query (url : String) : String :=
  if url = "" then url else String.mk (url.data.takeWhile (fun c => !(c = '?')))

/-! ## Fetcher (`download_file`, lines 98-110)

The HTTP interaction is modelled by its observable outcome: the request
either fails outright (timeout, DNS, connection reset), or a response with
a status code arrives whose body is streamed as a list of chunks,
optionally interrupted by a mid-stream transport error after the listed
chunks were delivered.  The destination file is `none` (absent) or
`some bytes`. -/

inductive NetResult where
  | reqError : NetResult
  | response (status : Nat) (chunks : List (List Nat)) (midError : Bool) : NetResult

/-- `download_file` (lines 98-110): a non-200 status returns `False`
before the file is opened; otherwise `open(dest_path, "wb")` truncates the
file and the delivered non-empty chunks (`if chunk:`) are written in
order.  A mid-stream error raises after those writes, and the
`except Exception: return False` swallows it, leaving the bytes written so
far at `dest_path`. -/

def download_file (net : NetResult) (dest : Option (List Nat)) : Bool × Option (List Nat) :=
  match net with
  | .reqError => (false, dest)
  | .response status chunks midError =>
    if status = 200 then
      let content := (chunks.filter (fun c => !c.isEmpty)).flatten
      if midError then (false, some content) else (true, some content)
    else (false, dest)

/-! ## Dispatcher / Worker Pool model (`process_excel`, lines 113-207)

In the source, `handle_skip` is called from the (single-threaded) scan
loop and `handle_success` / `handle_fail` are called from the
`as_completed` loop — all on the main thread; worker tasks only return
`("cancel" | "success" | "fail", filename, url, dest)` tuples.  The run is
therefore modelled by two sequential recursions: the pre-dispatch scan
(lines 180-192) and the completion loop (lines 194-199), the latter over
an arbitrary completion order (faithful runs consume a permutation of the
submitted items).  Per-item behaviour is driven by an environment giving,
for each item position: whether its destination already exists, whether
the cancel signal is observed at its scan step, whether the cancel signal
is observed at its task entry, and whether `download_file` succeeds. -/

structure Item where
  url : String
  dest : String
  filename : String
deriving DecidableEq

/-- One progress event as passed to `on_progress` (status, processed,
total, filename; the `done` event carries no filename). -/

inductive Ev where
  | skip (processed total : Nat) (filename : String) : Ev
  | success (processed total : Nat) (filename : String) : Ev
  | fail (processed total : Nat) (filename : String) : Ev
  | done (processed total : Nat) : Ev
deriving DecidableEq

def evProcessed : Ev → Nat
  | .skip p _ _ => p
  | .success p _ _ => p
  | .fail p _ _ => p
  | .done p _ => p

def isSkipEv : Ev → Bool
  | .skip _ _ _ => true
  | _ => false

def isSuccessEv : Ev → Bool
  | .success _ _ _ => true
  | _ => false

def isFailEv : Ev → Bool
  | .fail _ _ _ => true
  | _ => false

def isDoneEv : Ev → Bool
  | .done _ _ => true
  | _ => false

structure DispatchEnv where
  existsAt : Nat → Bool
  cancelScan : Nat → Bool
  cancelTask : Nat → Bool
  fetchOk : Nat → Bool

/-- `write_log` (lines 26-33): appending to the day-partitioned activity
log, with every failure (directory creation, open, write) swallowed by
`except Exception: pass` — modelled as the log staying unchanged. -/

def write_log (ok : Bool) (log : List String) (line : String) : List String :=
  if ok then log ++ [line] else log

/-- `write_error` (lines 35-42): same discipline for the error log. -/

def write_error (ok : Bool) (log : List String) (line : String) : List String :=
  if ok then log ++ [line] else log

structure ScanOut where
  processed : Nat
  events : List Ev
  log : List String
  submitted : List Nat
deriving DecidableEq

structure CompOut where
  processed : Nat
  events : List Ev
  log : List String
  err : List String
  downloads : List Nat
deriving DecidableEq

/-- The pre-dispatch loop (lines 180-192): for each item in order, first
check the cancel signal (`break` if set), then check
`os.path.exists(dest_path)`; an existing destination runs `handle_skip`
(lines 150-158: increment `processed`, emit the skip event, write the
activity-log line), otherwise the item's task is submitted to the pool.
`idx` is the position of the head item, `p` the current `processed`. -/

def scanLoop (env : DispatchEnv) (logOk : Bool) (total : Nat) :
    List Item → Nat → Nat → List String → ScanOut
  | [], _, p, lg => ⟨p, [], lg, []⟩
  | it :: rest, idx, p, lg =>
    if env.cancelScan idx then ⟨p, [], lg, []⟩
    else if env.existsAt idx then
      let out := scanLoop env logOk total rest (idx + 1) (p + 1)
        (write_log logOk lg ("已存在，跳过：" ++ it.filename))
      ⟨out.processed, .skip (p + 1) total it.filename :: out.events, out.log, out.submitted⟩
    else
      let out := scanLoop env logOk total rest (idx + 1) p lg
      ⟨out.processed, out.events, out.log, idx :: out.submitted⟩

/-- The `as_completed` loop (lines 194-199) consuming task results in the
given order: a task that observed the cancel signal at entry (line 188)
returned `("cancel", ...)` and is ignored; otherwise `download_file` ran
and `handle_success` (lines 160-168: increment, success event, log line)
or `handle_fail` (lines 170-176: fail event with the *current* count, log
line, error-log line) runs. -/

def compLoop (env : DispatchEnv) (logOk errOk : Bool) (total : Nat) :
    List (Nat × Item) → Nat → List String → List String → CompOut
  | [], p, lg, er => ⟨p, [], lg, er, []⟩
  | (i, it) :: rest, p, lg, er =>
    if env.cancelTask i then compLoop env logOk errOk total rest p lg er
    else if env.fetchOk i then
      let out := compLoop env logOk errOk total rest (p + 1)
        (write_log logOk lg ("下载成功：" ++ it.filename)) er
      ⟨out.processed, .success (p + 1) total it.filename :: out.events, out.log, out.err,
        i :: out.downloads⟩
    else
      let out := compLoop env logOk errOk total rest p
        (write_log logOk lg ("下载失败：" ++ it.filename))
        (write_error errOk er ("下载失败：" ++ it.filename ++ " | URL：" ++ it.url))
      ⟨out.processed, .fail p total it.filename :: out.events, out.log, out.err,
        i :: out.downloads⟩

/-- Pair each completion-order position with its item. -/

def compItemsOf (items : List Item) (comp : List Nat) : List (Nat × Item) :=
  comp.filterMap (fun i => (items[i]?).map (fun it => (i, it)))

structure RunOut where
  processed : Nat
  events : List Ev
  log : List String
  err : List String
  submitted : List Nat
  downloads : List Nat
deriving DecidableEq

/-- The dispatch part of `process_excel` (lines 146-207) on an extracted
item list: `total = len(items)`, `processed = 0`, the sequential scan,
the completion loop over the completion order `comp`, then the single
terminal done event (line 203) and the summary log line (line 206). -/

def runModel (env : DispatchEnv) (logOk errOk : Bool) (items : List Item)
    (comp : List Nat) : RunOut :=
  let total := items.length
  let s := scanLoop env logOk total items 0 0 []
  let c := compLoop env logOk errOk total (compItemsOf items comp) s.processed s.log []
  ⟨c.processed, s.events ++ c.events ++ [.done c.processed total],
    write_log logOk c.log ("完成：" ++ toString c.processed ++ "/" ++ toString total),
    c.err, s.submitted, c.downloads⟩

/-! ## Counting and ordering helpers for event streams -/

/-- The number of skip plus success events: the number of times the source
executed `processed += 1`. -/

def evCounts (l : List Ev) : Nat := l.countP isSkipEv + l.countP isSuccessEv

/-- Every event in `l` carries the `processed` value current at its
emission, namely `p` plus the increments performed up to and including
that event. -/

def AccFrom (p : Nat) (l : List Ev) : Prop :=
  ∀ pre e post, l = pre ++ e :: post → evProcessed e = p + evCounts (pre ++ [e])

/-- `(p :: values of l) ++ [q]` is non-decreasing: the event stream starts
at count `p`, ends at count `q`, and never decreases. -/

def ChainB (p : Nat) (l : List Ev) (q : Nat) : Prop :=
  List.Chain' (· ≤ ·) ((p :: l.map evProcessed) ++ [q])

def envCancelW : DispatchEnv :=
  ⟨fun _ => false, fun _ => true, fun _ => false, fun _ => true⟩

def itemsW : List Item :=
  [⟨"http://a/1.jpg", "out/a.jpg", "a.jpg"⟩, ⟨"http://a/2.jpg", "out/b.jpg", "b.jpg"⟩]

/-! ## Trace model of the pre-dispatch loop (C3)

The scan loop (lines 180-192) performs, per item and in program order on
the main thread: the cancel-signal check, the `os.path.exists` check, and
then either the skip handling or the `executor.submit` call.  The trace
records these actions in the order the main thread performs them. -/

inductive Act where
  | cancelCheck (i : Nat) : Act
  | existCheck (i : Nat) : Act
  | emitSkip (i : Nat) : Act
  | submit (i : Nat) : Act
deriving DecidableEq

def actIdx : Act → Nat
  | .cancelCheck i => i
  | .existCheck i => i
  | .emitSkip i => i
  | .submit i => i

/-- The action trace of the scan loop over `n` items starting at index
`m`: check cancel (stop if set), check existence, then skip or submit,
then move to the next item. -/

def scanTrace (env : DispatchEnv) : Nat → Nat → List Act
  | 0, _ => []
  | Nat.succ n, m =>
    if env.cancelScan m then [Act.cancelCheck m]
    else if env.existsAt m then
      Act.cancelCheck m :: Act.existCheck m :: Act.emitSkip m :: scanTrace env n (m + 1)
    else
      Act.cancelCheck m :: Act.existCheck m :: Act.submit m :: scanTrace env n (m + 1)

/-- `a` happens before `b` in the trace: `a` occurs at an earlier
position. -/

def hb (tr : List Act) (a b : Act) : Prop :=
  ∃ kp lp : Nat, kp < lp ∧ tr[kp]? = some a ∧ tr[lp]? = some b

def envScanW : DispatchEnv :=
  ⟨fun _ => false, fun _ => false, fun _ => false, fun _ => true⟩

/-! ## Workbook setup model (`process_excel` lines 113-144, C6)

The spreadsheet is modelled by its observable content: named sheets, each
with a header row and body rows of optional cell strings.  `load_workbook`
failing (unreadable input) is the `none` input; the remaining fatal paths
follow the source order: sheet lookup (line 116), header validation
(line 122), and only then `ensure_dir(output_dir)` (line 124), item
extraction (lines 127-144) and the dispatch loop. -/

structure Sheet where
  header : List (Option String)
  body : List (List (Option String))
deriving DecidableEq

structure Workbook where
  sheets : List (String × Sheet)
deriving DecidableEq

def Workbook.sheetnames (wb : Workbook) : List String := wb.sheets.map Prod.fst

def lookupSheet (wb : Workbook) (name : String) : Option Sheet :=
  (wb.sheets.find? (fun q => q.1 == name)).map Prod.snd

inductive FatalErr where
  | unreadable : FatalErr
  | sheetMissing (name : String) : FatalErr
  | missingColumns (missing : List String) : FatalErr
deriving DecidableEq

def pyStripString (s : String) : String := String.mk (pyStrip s.data)

/-- The `header_map` dict of `find_header_indices` (lines 86-90): stripped
cell text to column index, later duplicates overwriting earlier ones. -/

def headerMap (header : List (Option String)) : List (String × Nat) :=
  header.enum.filterMap (fun q => q.2.map (fun s => (pyStripString s, q.1)))

def dictGet (m : List (String × Nat)) (key : String) : Option Nat :=
  (m.reverse.find? (fun q => q.1 == key)).map Prod.snd

/-- The `required` column list (line 91). -/

def requiredColumns : List String := ["一级", "二级1", "二级2", "三级", "品牌", "条码", "imageUrl"]

/-- `find_header_indices` (lines 84-95): build the header map, collect the
required columns that are absent, and raise
`ValueError(f"Excel表头缺少必要列: {missing}")` if any are. -/

def find_header_indices (header : List (Option String)) :
    Except FatalErr (List (String × Nat)) :=
  if (requiredColumns.filter (fun c => (dictGet (headerMap header) c).isNone)).isEmpty
  then .ok (headerMap header)
  else .error (.missingColumns
    (requiredColumns.filter (fun c => (dictGet (headerMap header) c).isNone)))

/-- Column index lookup after a successful header validation (the `getD 0`
default is unreachable there: every required column is present). -/

def colIdx (hm : List (String × Nat)) (c : String) : Nat := (dictGet hm c).getD 0

/-- `row[i]` for a row of optional cells (rows from `values_only=True`
have full width; out-of-range is totalized to an empty cell). -/

def cellAt (row : List (Option String)) (i : Nat) : Option String := (row[i]?).join

/-- The extraction loop (lines 127-141): skip rows whose `imageUrl` cell
is `None` or `""`, otherwise strip the query string, build the filename
from the six category/brand/barcode fields and join it to the output
directory. -/

def extractItems (hm : List (String × Nat)) (outDir : String)
    (rows : List (List (Option String))) : List Item :=
  rows.filterMap (fun row =>
    match cellAt row (colIdx hm "imageUrl") with
    | none => none
    | some u =>
      if u = "" then none
      else
        some ⟨strip_query u,
          outDir ++ "/" ++ build_filename
            [cellAt row (colIdx hm "一级"), cellAt row (colIdx hm "二级1"),
             cellAt row (colIdx hm "二级2"), cellAt row (colIdx hm "三级"),
             cellAt row (colIdx hm "品牌"), cellAt row (colIdx hm "条码")],
          build_filename
            [cellAt row (colIdx hm "一级"), cellAt row (colIdx hm "二级1"),
             cellAt row (colIdx hm "二级2"), cellAt row (colIdx hm "三级"),
             cellAt row (colIdx hm "品牌"), cellAt row (colIdx hm "条码")]⟩)

/-- `ws.iter_rows(min_row=start_row, max_row=end_row)` over the body rows
(row number `r ≥ 2` is body index `r - 2`). -/

def rowsInRange (startRow : Nat) (endRow : Option Nat)
    (body : List (List (Option String))) : List (List (Option String)) :=
  match endRow with
  | none => body.drop (startRow - 2)
  | some e => (body.drop (startRow - 2)).take (e + 1 - startRow)

/-- `items = items[:limit]` (lines 143-144). -/

def applyLimit (limit : Option Nat) (items : List Item) : List Item :=
  match limit with
  | none => items
  | some n => items.take n

inductive Eff where
  | ensureDir (path : String) : Eff
deriving DecidableEq

/-- `process_excel` (lines 113-207): open the workbook (fatal if
unreadable), check the sheet, validate the header; only on success create
the output directory, extract and limit the items, and run the dispatch
loop.  The first component records the directory-creation effect. -/

def process_excel_model (input : Option Workbook) (sheet_name : String)
    (output_dir : String) (startRow : Nat) (endRow : Option Nat) (limit : Option Nat)
    (env : DispatchEnv) (logOk errOk : Bool) (comp : List Nat) :
    List Eff × Except FatalErr RunOut :=
  match input with
  | none => ([], .error .unreadable)
  | some wb =>
    match lookupSheet wb sheet_name with
    | none => ([], .error (.sheetMissing sheet_name))
    | some ws =>
      match find_header_indices ws.header with
      | .error e => ([], .error e)
      | .ok hm =>
        ([Eff.ensureDir output_dir],
          .ok (runModel env logOk errOk
            (applyLimit limit (extractItems hm output_dir (rowsInRange startRow endRow ws.body)))
            comp))

def wbMissingW : Workbook :=
  ⟨[("Sheet1",
    ⟨[some "一级", some "二级1", some "二级2", some "三级", some "品牌", some "条码"], []⟩)]⟩

def envPlainW : DispatchEnv :=
  ⟨fun _ => false, fun _ => false, fun _ => false, fun _ => true⟩

/-! ## Worker-pool bound (C8)

`ThreadPoolExecutor(max_workers=max(1, int(concurrency or 1)))`
(line 179): the pool is modelled as a transition system in which a pending
task may start only while fewer than `max_workers` tasks are running. -/

/-- Python `concurrency or 1`: `None` and `0` are falsy. -/

def pyOrOne (c : Option Int) : Int :=
  match c with
  | none => 1
  | some v => if v = 0 then 1 else v

/-- `max(1, int(concurrency or 1))` (line 179). -/

def max_workers (c : Option Int) : Int := max 1 (pyOrOne c)

/-- The default of the `concurrency` parameter (line 113) and of the
`--concurrency` CLI flag (line 219). -/

def defaultConcurrency : Int := 4

structure PoolState where
  pending : Nat
  running : Nat
  finished : Nat
deriving DecidableEq

/-- One scheduler step of a pool bounded by `w` workers: a pending task
starts only while fewer than `w` run; a running task finishes. -/

inductive PoolStep (w : Nat) : PoolState → PoolState → Prop where
  | start (p r f : Nat) : r < w → PoolStep w ⟨p + 1, r, f⟩ ⟨p, r + 1, f⟩
  | finish (p r f : Nat) : PoolStep w ⟨p, r + 1, f⟩ ⟨p, r, f + 1⟩

def PoolReachable (w : Nat) (s0 s : PoolState) : Prop :=
  Relation.ReflTransGen (PoolStep w) s0 s

/-! ## Lemmas and claim theorems -/

/-! ## Lemmas about the Filename Builder -/

lemma joinDash_replicate_nil :
    (n : Nat) → joinDash (List.replicate n []) = List.replicate (n - 1) '-'
  | 0 => rfl
  | 1 => rfl
  | Nat.succ (Nat.succ n) => by
    have ih := joinDash_replicate_nil (Nat.succ n)
    have harg : List.replicate (Nat.succ (Nat.succ n)) ([] : List Char)
        = [] :: [] :: List.replicate n [] := by simp [List.replicate_succ]
    rw [harg]
    show '-' :: joinDash ([] :: List.replicate n []) = List.replicate (Nat.succ n) '-'
    rw [show ([] :: List.replicate n ([] : List Char)) = List.replicate (Nat.succ n) [] by
      simp [List.replicate_succ]]
    rw [ih]
    simp [List.replicate_succ]

lemma dropWhile_dashes_jpg :
    (k : Nat) →
      (List.replicate k '-' ++ ".jpg".data).dropWhile (fun c => c = '-') = ".jpg".data
  | 0 => by decide
  | Nat.succ k => by
    have h := dropWhile_dashes_jpg k
    simp only [List.replicate_succ, List.cons_append, List.dropWhile_cons]
    simp only [decide_eq_true_eq, if_pos rfl]
    exact h

/-! ## Claim theorems: Filename Builder -/

/-- C1 counterexample: the dash-collapsing pass runs per field before the
join, so the empty field from `None` leaves a doubled dash in the joined
name; `build(["A","B",None,"C","Br","123"])` is not `"A-B-C-Br-123.jpg"`. -/

theorem build_filename_double_dash_cex :
    build_filename [some "A", some "B", none, some "C", some "Br", some "123"]
      ≠ "A-B-C-Br-123.jpg" := by decide

/-- C1 (amended): a missing/`None` field sanitizes to the empty string,
but it still contributes its join separator, so adjacent separators double
up: `build(["A","B",None,"C","Br","123"]) = "A-B--C-Br-123.jpg"`. -/

theorem build_filename_missing_field_amended :
    sanitize none = "" ∧
    build_filename [some "A", some "B", none, some "C", some "Br", some "123"]
      = "A-B--C-Br-123.jpg" := by
  exact ⟨rfl, by decide⟩

/-- C10: when every field sanitizes to the empty string, the join is all
dashes, the leading-dash strip removes them all together with the
dash-before-extension collapse, and `build_filename` returns exactly
`".jpg"`: all such records collide on the hidden destination name. -/

theorem build_filename_all_empty (fields : List (Option String))
    (h : ∀ f ∈ fields, sanitize f = "") : build_filename fields = ".jpg" := by
  have hc : ∀ f ∈ fields, sanitizeChars f = [] := by
    intro f hf
    have hdata := congrArg String.data (h f hf)
    simpa [sanitize] using hdata
  have hmap : fields.map sanitizeChars = List.replicate fields.length [] := by
    have hmem : ∀ b ∈ fields.map sanitizeChars, b = ([] : List Char) := by
      intro b hb
      rcases List.mem_map.mp hb with ⟨f, hf, rfl⟩
      exact hc f hf
    simpa using List.eq_replicate_of_mem hmem
  unfold build_filename
  rw [hmap, joinDash_replicate_nil, dropWhile_dashes_jpg]
  decide

/-- C10 witness: a record whose six fields are all `None` maps to `".jpg"`. -/

theorem build_filename_all_empty_witness :
    build_filename [none, none, none, none, none, none] = ".jpg" :=
  build_filename_all_empty [none, none, none, none, none, none] (by decide)

/-! ## Claim theorems: Fetcher -/

/-- C4 counterexample: a transport error in the middle of the body stream
(status 200, chunk `[1, 2]` delivered, then the connection drops) returns
`Failed` yet leaves a partially-written file observable at `destPath`. -/

theorem download_file_midstream_cex :
    download_file (.response 200 [[1, 2]] true) none = (false, some [1, 2]) ∧
    (some [1, 2] : Option (List Nat)) ≠ none := by decide

/-- C4 (amended): `fetch` returns `Failed` for any non-200 response or
transport-level error; a request error or non-200 response leaves the
destination untouched (the status is checked before the file is opened),
but a transport error during body streaming leaves the bytes written so
far at `destPath`. -/

theorem download_file_failure_modes (st : Nat) (chunks : List (List Nat))
    (me : Bool) (dest : Option (List Nat)) :
    download_file .reqError dest = (false, dest) ∧
    (st ≠ 200 → download_file (.response st chunks me) dest = (false, dest)) ∧
    (download_file (.response 200 chunks true) dest).1 = false ∧
    (download_file (.response 200 chunks false) dest).1 = true := by
  refine ⟨rfl, fun h => ?_, ?_, ?_⟩
  · simp [download_file, h]
  · simp [download_file]
  · simp [download_file]

/-- C4 witness: the failure modes evaluated at concrete transfers. -/

theorem download_file_failure_modes_witness :
    download_file .reqError none = (false, none) ∧
    download_file (.response 404 [] false) none = (false, none) ∧
    (download_file (.response 200 [[7]] true) none).1 = false := by
  have h := download_file_failure_modes 404 ([] : List (List Nat)) false none
  have h2 := download_file_failure_modes 200 [[7]] true none
  exact ⟨h.1, h.2.1 (by decide), h2.2.2.1⟩

lemma evCounts_cons (e : Ev) (l : List Ev) : evCounts (e :: l) = evCounts [e] + evCounts l := by
  simp [evCounts, List.countP_cons]
  omega

lemma evCounts_append (l1 l2 : List Ev) : evCounts (l1 ++ l2) = evCounts l1 + evCounts l2 := by
  simp [evCounts, List.countP_append]
  omega

lemma accFrom_nil (p : Nat) : AccFrom p [] := by
  intro pre e post h
  exact absurd h (by simp)

lemma accFrom_cons {p : Nat} {e0 : Ev} {l : List Ev}
    (hhead : evProcessed e0 = p + evCounts [e0])
    (htail : AccFrom (p + evCounts [e0]) l) : AccFrom p (e0 :: l) := by
  intro pre e post h
  cases pre with
  | nil =>
    simp only [List.nil_append] at h
    obtain ⟨rfl, rfl⟩ := List.cons.inj h
    simpa using hhead
  | cons a pre2 =>
    simp only [List.cons_append] at h
    obtain ⟨rfl, h2⟩ := List.cons.inj h
    have := htail pre2 e post h2
    rw [this, List.cons_append, evCounts_cons e0 (pre2 ++ [e])]
    omega

lemma accFrom_cons_tail {p : Nat} {e0 : Ev} {l : List Ev} (h : AccFrom p (e0 :: l)) :
    AccFrom (p + evCounts [e0]) l := by
  intro pre e post hx
  have := h (e0 :: pre) e post (by simp [hx])
  rw [this, List.cons_append, evCounts_cons e0 (pre ++ [e])]
  omega

lemma accFrom_cons_head {p : Nat} {e0 : Ev} {l : List Ev} (h : AccFrom p (e0 :: l)) :
    evProcessed e0 = p + evCounts [e0] := by
  simpa using h [] e0 l rfl

lemma accFrom_append {l1 l2 : List Ev} :
    ∀ {p : Nat}, AccFrom p l1 → AccFrom (p + evCounts l1) l2 → AccFrom p (l1 ++ l2) := by
  induction l1 with
  | nil =>
    intro p h1 h2
    simpa [evCounts] using h2
  | cons e l1 ih =>
    intro p h1 h2
    rw [List.cons_append]
    refine accFrom_cons (accFrom_cons_head h1) (ih (accFrom_cons_tail h1) ?_)
    rw [evCounts_cons] at h2
    rw [show p + evCounts [e] + evCounts l1 = p + (evCounts [e] + evCounts l1) by omega]
    exact h2

lemma chainB_nil (p : Nat) : ChainB p [] p := by simp [ChainB]

lemma chainB_cons {p q v : Nat} {e : Ev} {l : List Ev} (hv : evProcessed e = v)
    (hpv : p ≤ v) (h : ChainB v l q) : ChainB p (e :: l) q := by
  simp only [ChainB, List.map_cons, List.cons_append] at h ⊢
  rw [hv]
  exact List.chain'_cons.mpr ⟨hpv, h⟩

lemma write_log_length (ok : Bool) (lg : List String) (line : String) :
    (write_log ok lg line).length = lg.length + (if ok then 1 else 0) := by
  cases ok <;> simp [write_log]

lemma write_error_length (ok : Bool) (lg : List String) (line : String) :
    (write_error ok lg line).length = lg.length + (if ok then 1 else 0) := by
  cases ok <;> simp [write_error]

/-! ## Scan-loop lemmas -/

lemma scan_processed (env : DispatchEnv) (logOk : Bool) (total : Nat) :
    ∀ (items : List Item) (idx p : Nat) (lg : List String),
      (scanLoop env logOk total items idx p lg).processed
        = p + (scanLoop env logOk total items idx p lg).events.countP isSkipEv
  | [], idx, p, lg => by simp [scanLoop]
  | it :: rest, idx, p, lg => by
    cases hc : env.cancelScan idx
    · cases he : env.existsAt idx
      · have ih := scan_processed env logOk total rest (idx + 1) p lg
        simp [scanLoop, hc, he, ih]
      · have ih := scan_processed env logOk total rest (idx + 1) (p + 1)
          (write_log logOk lg ("已存在，跳过：" ++ it.filename))
        simp [scanLoop, hc, he, List.countP_cons, isSkipEv, ih]
        omega
    · simp [scanLoop, hc]

lemma scan_zero_counts (env : DispatchEnv) (logOk : Bool) (total : Nat) :
    ∀ (items : List Item) (idx p : Nat) (lg : List String),
      (scanLoop env logOk total items idx p lg).events.countP isSuccessEv = 0 ∧
      (scanLoop env logOk total items idx p lg).events.countP isFailEv = 0 ∧
      (scanLoop env logOk total items idx p lg).events.countP isDoneEv = 0
  | [], idx, p, lg => by simp [scanLoop]
  | it :: rest, idx, p, lg => by
    cases hc : env.cancelScan idx
    · cases he : env.existsAt idx
      · have ih := scan_zero_counts env logOk total rest (idx + 1) p lg
        simpa [scanLoop, hc, he] using ih
      · have ih := scan_zero_counts env logOk total rest (idx + 1) (p + 1)
          (write_log logOk lg ("已存在，跳过：" ++ it.filename))
        simpa [scanLoop, hc, he, List.countP_cons, isSuccessEv, isFailEv, isDoneEv] using ih
    · simp [scanLoop, hc]

lemma scan_log_len (env : DispatchEnv) (logOk : Bool) (total : Nat) :
    ∀ (items : List Item) (idx p : Nat) (lg : List String),
      (scanLoop env logOk total items idx p lg).log.length
        = lg.length
          + (if logOk then (scanLoop env logOk total items idx p lg).events.countP isSkipEv else 0)
  | [], idx, p, lg => by simp [scanLoop]
  | it :: rest, idx, p, lg => by
    cases hc : env.cancelScan idx
    · cases he : env.existsAt idx
      · have ih := scan_log_len env logOk total rest (idx + 1) p lg
        simpa [scanLoop, hc, he] using ih
      · have ih := scan_log_len env logOk total rest (idx + 1) (p + 1)
          (write_log logOk lg ("已存在，跳过：" ++ it.filename))
        have hw := write_log_length logOk lg ("已存在，跳过：" ++ it.filename)
        simp [scanLoop, hc, he, List.countP_cons, isSkipEv, ih, hw]
        cases logOk <;> (simp; try omega)
    · simp [scanLoop, hc]

lemma scan_acc (env : DispatchEnv) (logOk : Bool) (total : Nat) :
    ∀ (items : List Item) (idx p : Nat) (lg : List String),
      AccFrom p (scanLoop env logOk total items idx p lg).events
  | [], idx, p, lg => by simpa [scanLoop] using accFrom_nil p
  | it :: rest, idx, p, lg => by
    cases hc : env.cancelScan idx
    · cases he : env.existsAt idx
      · have ih := scan_acc env logOk total rest (idx + 1) p lg
        simpa [scanLoop, hc, he] using ih
      · have ih := scan_acc env logOk total rest (idx + 1) (p + 1)
          (write_log logOk lg ("已存在，跳过：" ++ it.filename))
        simp only [scanLoop, hc, he, if_false, if_true, Bool.false_eq_true]
        refine accFrom_cons ?_ ?_
        · simp [evProcessed, evCounts, isSkipEv, isSuccessEv, List.countP_cons]
        · simpa [evCounts, isSkipEv, isSuccessEv, List.countP_cons] using ih
    · simpa [scanLoop, hc] using accFrom_nil p

lemma scan_chain (env : DispatchEnv) (logOk : Bool) (total : Nat) :
    ∀ (items : List Item) (idx p : Nat) (lg : List String),
      ChainB p (scanLoop env logOk total items idx p lg).events
        (scanLoop env logOk total items idx p lg).processed
  | [], idx, p, lg => by simpa [scanLoop] using chainB_nil p
  | it :: rest, idx, p, lg => by
    cases hc : env.cancelScan idx
    · cases he : env.existsAt idx
      · have ih := scan_chain env logOk total rest (idx + 1) p lg
        simpa [scanLoop, hc, he] using ih
      · have ih := scan_chain env logOk total rest (idx + 1) (p + 1)
          (write_log logOk lg ("已存在，跳过：" ++ it.filename))
        simp only [scanLoop, hc, he, if_false, if_true, Bool.false_eq_true]
        exact chainB_cons
          (show evProcessed (Ev.skip (p + 1) total it.filename) = p + 1 from rfl)
          (Nat.le_succ p) ih
    · simpa [scanLoop, hc] using chainB_nil p

lemma scan_indep (env : DispatchEnv) (total : Nat) :
    ∀ (items : List Item) (idx p : Nat) (lg1 lg2 : List String) (lo1 lo2 : Bool),
      (scanLoop env lo1 total items idx p lg1).processed
          = (scanLoop env lo2 total items idx p lg2).processed ∧
      (scanLoop env lo1 total items idx p lg1).events
          = (scanLoop env lo2 total items idx p lg2).events ∧
      (scanLoop env lo1 total items idx p lg1).submitted
          = (scanLoop env lo2 total items idx p lg2).submitted
  | [], idx, p, lg1, lg2, lo1, lo2 => by simp [scanLoop]
  | it :: rest, idx, p, lg1, lg2, lo1, lo2 => by
    cases hc : env.cancelScan idx
    · cases he : env.existsAt idx
      · have ih := scan_indep env total rest (idx + 1) p lg1 lg2 lo1 lo2
        simpa [scanLoop, hc, he] using ih
      · have ih := scan_indep env total rest (idx + 1) (p + 1)
          (write_log lo1 lg1 ("已存在，跳过：" ++ it.filename))
          (write_log lo2 lg2 ("已存在，跳过：" ++ it.filename)) lo1 lo2
        simpa [scanLoop, hc, he] using ih
    · simp [scanLoop, hc]

lemma scan_cancel_now (env : DispatchEnv) (logOk : Bool) (total : Nat)
    (items : List Item) (idx p : Nat) (lg : List String)
    (h0 : env.cancelScan idx = true) :
    scanLoop env logOk total items idx p lg = ⟨p, [], lg, []⟩ := by
  cases items with
  | nil => rfl
  | cons it rest => simp [scanLoop, h0]

lemma scan_submitted_lt (env : DispatchEnv) (logOk : Bool) (total k : Nat)
    (hmono : ∀ a b : Nat, a ≤ b → env.cancelScan a = true → env.cancelScan b = true)
    (hk : env.cancelScan k = true) :
    ∀ (items : List Item) (idx p : Nat) (lg : List String),
      ∀ j ∈ (scanLoop env logOk total items idx p lg).submitted, j < k
  | [], idx, p, lg => by simp [scanLoop]
  | it :: rest, idx, p, lg => by
    intro j hj
    have hidx : idx < k := by
      by_contra hge
      have : env.cancelScan idx = true := hmono k idx (by omega) hk
      rw [scan_cancel_now env logOk total (it :: rest) idx p lg this] at hj
      simp at hj
    cases hc : env.cancelScan idx
    · cases he : env.existsAt idx
      · have ih := scan_submitted_lt env logOk total k hmono hk rest (idx + 1) p lg
        simp only [scanLoop, hc, he, if_false, Bool.false_eq_true] at hj
        simp at hj
        rcases hj with rfl | hj
        · exact hidx
        · exact ih j hj
      · have ih := scan_submitted_lt env logOk total k hmono hk rest (idx + 1) (p + 1)
          (write_log logOk lg ("已存在，跳过：" ++ it.filename))
        simp only [scanLoop, hc, he] at hj
        simp at hj
        exact ih j hj
    · rw [scan_cancel_now env logOk total (it :: rest) idx p lg hc] at hj
      simp at hj

lemma scan_skip_le (env : DispatchEnv) (logOk : Bool) (total k : Nat)
    (hmono : ∀ a b : Nat, a ≤ b → env.cancelScan a = true → env.cancelScan b = true)
    (hk : env.cancelScan k = true) :
    ∀ (items : List Item) (idx p : Nat) (lg : List String),
      (scanLoop env logOk total items idx p lg).events.countP isSkipEv ≤ k - idx
  | [], idx, p, lg => by simp [scanLoop]
  | it :: rest, idx, p, lg => by
    by_cases hidx : idx < k
    · cases hc : env.cancelScan idx
      · cases he : env.existsAt idx
        · have ih := scan_skip_le env logOk total k hmono hk rest (idx + 1) p lg
          simp only [scanLoop, hc, he, if_false, Bool.false_eq_true]
          omega
        · have ih := scan_skip_le env logOk total k hmono hk rest (idx + 1) (p + 1)
            (write_log logOk lg ("已存在，跳过：" ++ it.filename))
          simp only [scanLoop, hc, he, if_false, if_true, Bool.false_eq_true]
          simp [List.countP_cons, isSkipEv]
          omega
      · rw [scan_cancel_now env logOk total (it :: rest) idx p lg hc]
        simp
    · have : env.cancelScan idx = true := hmono k idx (by omega) hk
      rw [scan_cancel_now env logOk total (it :: rest) idx p lg this]
      simp

/-! ## Completion-loop lemmas

`ns` below is the sublist of completions whose task did not observe the
cancel signal: only those run `download_file` and a handler. -/

lemma comp_processed (env : DispatchEnv) (logOk errOk : Bool) (total : Nat) :
    ∀ (l : List (Nat × Item)) (p : Nat) (lg er : List String),
      (compLoop env logOk errOk total l p lg er).processed
        = p + (((l.filter (fun q => !env.cancelTask q.1)).filter
            (fun q => env.fetchOk q.1)).length)
  | [], p, lg, er => by simp [compLoop]
  | (i, it) :: rest, p, lg, er => by
    cases hct : env.cancelTask i
    · cases hf : env.fetchOk i
      · have ih := comp_processed env logOk errOk total rest p
          (write_log logOk lg ("下载失败：" ++ it.filename))
          (write_error errOk er ("下载失败：" ++ it.filename ++ " | URL：" ++ it.url))
        simp [compLoop, hct, hf, List.filter_cons, ih]
      · have ih := comp_processed env logOk errOk total rest (p + 1)
          (write_log logOk lg ("下载成功：" ++ it.filename)) er
        simp [compLoop, hct, hf, List.filter_cons, ih]
        omega
    · have ih := comp_processed env logOk errOk total rest p lg er
      simp [compLoop, hct, List.filter_cons, ih]

lemma comp_succ_count (env : DispatchEnv) (logOk errOk : Bool) (total : Nat) :
    ∀ (l : List (Nat × Item)) (p : Nat) (lg er : List String),
      (compLoop env logOk errOk total l p lg er).events.countP isSuccessEv
        = (((l.filter (fun q => !env.cancelTask q.1)).filter
            (fun q => env.fetchOk q.1)).length)
  | [], p, lg, er => by simp [compLoop]
  | (i, it) :: rest, p, lg, er => by
    cases hct : env.cancelTask i
    · cases hf : env.fetchOk i
      · have ih := comp_succ_count env logOk errOk total rest p
          (write_log logOk lg ("下载失败：" ++ it.filename))
          (write_error errOk er ("下载失败：" ++ it.filename ++ " | URL：" ++ it.url))
        simp [compLoop, hct, hf, List.filter_cons, List.countP_cons, isSuccessEv, ih]
      · have ih := comp_succ_count env logOk errOk total rest (p + 1)
          (write_log logOk lg ("下载成功：" ++ it.filename)) er
        simp [compLoop, hct, hf, List.filter_cons, List.countP_cons, isSuccessEv, ih]
    · have ih := comp_succ_count env logOk errOk total rest p lg er
      simp [compLoop, hct, List.filter_cons, ih]

lemma comp_fail_count (env : DispatchEnv) (logOk errOk : Bool) (total : Nat) :
    ∀ (l : List (Nat × Item)) (p : Nat) (lg er : List String),
      (compLoop env logOk errOk total l p lg er).events.countP isFailEv
        = (((l.filter (fun q => !env.cancelTask q.1)).filter
            (fun q => !env.fetchOk q.1)).length)
  | [], p, lg, er => by simp [compLoop]
  | (i, it) :: rest, p, lg, er => by
    cases hct : env.cancelTask i
    · cases hf : env.fetchOk i
      · have ih := comp_fail_count env logOk errOk total rest p
          (write_log logOk lg ("下载失败：" ++ it.filename))
          (write_error errOk er ("下载失败：" ++ it.filename ++ " | URL：" ++ it.url))
        simp [compLoop, hct, hf, List.filter_cons, List.countP_cons, isFailEv, ih]
      · have ih := comp_fail_count env logOk errOk total rest (p + 1)
          (write_log logOk lg ("下载成功：" ++ it.filename)) er
        simp [compLoop, hct, hf, List.filter_cons, List.countP_cons, isFailEv, ih]
    · have ih := comp_fail_count env logOk errOk total rest p lg er
      simp [compLoop, hct, List.filter_cons, ih]

lemma comp_zero_counts (env : DispatchEnv) (logOk errOk : Bool) (total : Nat) :
    ∀ (l : List (Nat × Item)) (p : Nat) (lg er : List String),
      (compLoop env logOk errOk total l p lg er).events.countP isSkipEv = 0 ∧
      (compLoop env logOk errOk total l p lg er).events.countP isDoneEv = 0
  | [], p, lg, er => by simp [compLoop]
  | (i, it) :: rest, p, lg, er => by
    cases hct : env.cancelTask i
    · cases hf : env.fetchOk i
      · have ih := comp_zero_counts env logOk errOk total rest p
          (write_log logOk lg ("下载失败：" ++ it.filename))
          (write_error errOk er ("下载失败：" ++ it.filename ++ " | URL：" ++ it.url))
        simpa [compLoop, hct, hf, List.countP_cons, isSkipEv, isDoneEv] using ih
      · have ih := comp_zero_counts env logOk errOk total rest (p + 1)
          (write_log logOk lg ("下载成功：" ++ it.filename)) er
        simpa [compLoop, hct, hf, List.countP_cons, isSkipEv, isDoneEv] using ih
    · have ih := comp_zero_counts env logOk errOk total rest p lg er
      simpa [compLoop, hct] using ih

lemma comp_events_len (env : DispatchEnv) (logOk errOk : Bool) (total : Nat) :
    ∀ (l : List (Nat × Item)) (p : Nat) (lg er : List String),
      (compLoop env logOk errOk total l p lg er).events.length
        = (l.filter (fun q => !env.cancelTask q.1)).length
  | [], p, lg, er => by simp [compLoop]
  | (i, it) :: rest, p, lg, er => by
    cases hct : env.cancelTask i
    · cases hf : env.fetchOk i
      · have ih := comp_events_len env logOk errOk total rest p
          (write_log logOk lg ("下载失败：" ++ it.filename))
          (write_error errOk er ("下载失败：" ++ it.filename ++ " | URL：" ++ it.url))
        simp [compLoop, hct, hf, List.filter_cons, ih]
      · have ih := comp_events_len env logOk errOk total rest (p + 1)
          (write_log logOk lg ("下载成功：" ++ it.filename)) er
        simp [compLoop, hct, hf, List.filter_cons, ih]
    · have ih := comp_events_len env logOk errOk total rest p lg er
      simp [compLoop, hct, List.filter_cons, ih]

lemma comp_downloads (env : DispatchEnv) (logOk errOk : Bool) (total : Nat) :
    ∀ (l : List (Nat × Item)) (p : Nat) (lg er : List String),
      (compLoop env logOk errOk total l p lg er).downloads
        = (l.filter (fun q => !env.cancelTask q.1)).map Prod.fst
  | [], p, lg, er => by simp [compLoop]
  | (i, it) :: rest, p, lg, er => by
    cases hct : env.cancelTask i
    · cases hf : env.fetchOk i
      · have ih := comp_downloads env logOk errOk total rest p
          (write_log logOk lg ("下载失败：" ++ it.filename))
          (write_error errOk er ("下载失败：" ++ it.filename ++ " | URL：" ++ it.url))
        simp [compLoop, hct, hf, List.filter_cons, ih]
      · have ih := comp_downloads env logOk errOk total rest (p + 1)
          (write_log logOk lg ("下载成功：" ++ it.filename)) er
        simp [compLoop, hct, hf, List.filter_cons, ih]
    · have ih := comp_downloads env logOk errOk total rest p lg er
      simp [compLoop, hct, List.filter_cons, ih]

lemma comp_err_len (env : DispatchEnv) (logOk errOk : Bool) (total : Nat) :
    ∀ (l : List (Nat × Item)) (p : Nat) (lg er : List String),
      (compLoop env logOk errOk total l p lg er).err.length
        = er.length
          + (if errOk then (((l.filter (fun q => !env.cancelTask q.1)).filter
              (fun q => !env.fetchOk q.1)).length) else 0)
  | [], p, lg, er => by simp [compLoop]
  | (i, it) :: rest, p, lg, er => by
    cases hct : env.cancelTask i
    · cases hf : env.fetchOk i
      · have ih := comp_err_len env logOk errOk total rest p
          (write_log logOk lg ("下载失败：" ++ it.filename))
          (write_error errOk er ("下载失败：" ++ it.filename ++ " | URL：" ++ it.url))
        have hw := write_error_length errOk er ("下载失败：" ++ it.filename ++ " | URL：" ++ it.url)
        simp [compLoop, hct, hf, List.filter_cons, ih, hw]
        cases errOk <;> (simp; try omega)
      · have ih := comp_err_len env logOk errOk total rest (p + 1)
          (write_log logOk lg ("下载成功：" ++ it.filename)) er
        simp [compLoop, hct, hf, List.filter_cons, ih]
    · have ih := comp_err_len env logOk errOk total rest p lg er
      simp [compLoop, hct, List.filter_cons, ih]

lemma comp_log_len (env : DispatchEnv) (logOk errOk : Bool) (total : Nat) :
    ∀ (l : List (Nat × Item)) (p : Nat) (lg er : List String),
      (compLoop env logOk errOk total l p lg er).log.length
        = lg.length
          + (if logOk then (l.filter (fun q => !env.cancelTask q.1)).length else 0)
  | [], p, lg, er => by simp [compLoop]
  | (i, it) :: rest, p, lg, er => by
    cases hct : env.cancelTask i
    · cases hf : env.fetchOk i
      · have ih := comp_log_len env logOk errOk total rest p
          (write_log logOk lg ("下载失败：" ++ it.filename))
          (write_error errOk er ("下载失败：" ++ it.filename ++ " | URL：" ++ it.url))
        have hw := write_log_length logOk lg ("下载失败：" ++ it.filename)
        simp [compLoop, hct, hf, List.filter_cons, ih, hw]
        cases logOk <;> (simp; try omega)
      · have ih := comp_log_len env logOk errOk total rest (p + 1)
          (write_log logOk lg ("下载成功：" ++ it.filename)) er
        have hw := write_log_length logOk lg ("下载成功：" ++ it.filename)
        simp [compLoop, hct, hf, List.filter_cons, ih, hw]
        cases logOk <;> (simp; try omega)
    · have ih := comp_log_len env logOk errOk total rest p lg er
      simp [compLoop, hct, List.filter_cons, ih]

lemma comp_acc (env : DispatchEnv) (logOk errOk : Bool) (total : Nat) :
    ∀ (l : List (Nat × Item)) (p : Nat) (lg er : List String),
      AccFrom p (compLoop env logOk errOk total l p lg er).events
  | [], p, lg, er => by simpa [compLoop] using accFrom_nil p
  | (i, it) :: rest, p, lg, er => by
    cases hct : env.cancelTask i
    · cases hf : env.fetchOk i
      · have ih := comp_acc env logOk errOk total rest p
          (write_log logOk lg ("下载失败：" ++ it.filename))
          (write_error errOk er ("下载失败：" ++ it.filename ++ " | URL：" ++ it.url))
        simp only [compLoop, hct, hf, if_false, Bool.false_eq_true]
        refine accFrom_cons ?_ ?_
        · simp [evProcessed, evCounts, isSkipEv, isSuccessEv, List.countP_cons]
        · simpa [evCounts, isSkipEv, isSuccessEv, List.countP_cons] using ih
      · have ih := comp_acc env logOk errOk total rest (p + 1)
          (write_log logOk lg ("下载成功：" ++ it.filename)) er
        simp only [compLoop, hct, hf, if_false, if_true, Bool.false_eq_true]
        refine accFrom_cons ?_ ?_
        · simp [evProcessed, evCounts, isSkipEv, isSuccessEv, List.countP_cons]
        · simpa [evCounts, isSkipEv, isSuccessEv, List.countP_cons] using ih
    · have ih := comp_acc env logOk errOk total rest p lg er
      simpa [compLoop, hct] using ih

lemma comp_chain (env : DispatchEnv) (logOk errOk : Bool) (total : Nat) :
    ∀ (l : List (Nat × Item)) (p : Nat) (lg er : List String),
      ChainB p (compLoop env logOk errOk total l p lg er).events
        (compLoop env logOk errOk total l p lg er).processed
  | [], p, lg, er => by simpa [compLoop] using chainB_nil p
  | (i, it) :: rest, p, lg, er => by
    cases hct : env.cancelTask i
    · cases hf : env.fetchOk i
      · have ih := comp_chain env logOk errOk total rest p
          (write_log logOk lg ("下载失败：" ++ it.filename))
          (write_error errOk er ("下载失败：" ++ it.filename ++ " | URL：" ++ it.url))
        simp only [compLoop, hct, hf, if_false, Bool.false_eq_true]
        exact chainB_cons
          (show evProcessed (Ev.fail p total it.filename) = p from rfl) (Nat.le_refl p) ih
      · have ih := comp_chain env logOk errOk total rest (p + 1)
          (write_log logOk lg ("下载成功：" ++ it.filename)) er
        simp only [compLoop, hct, hf, if_false, if_true, Bool.false_eq_true]
        exact chainB_cons
          (show evProcessed (Ev.success (p + 1) total it.filename) = p + 1 from rfl)
          (Nat.le_succ p) ih
    · have ih := comp_chain env logOk errOk total rest p lg er
      simpa [compLoop, hct] using ih

lemma comp_indep (env : DispatchEnv) (total : Nat) :
    ∀ (l : List (Nat × Item)) (p : Nat) (lg1 er1 lg2 er2 : List String)
      (lo1 eo1 lo2 eo2 : Bool),
      (compLoop env lo1 eo1 total l p lg1 er1).processed
          = (compLoop env lo2 eo2 total l p lg2 er2).processed ∧
      (compLoop env lo1 eo1 total l p lg1 er1).events
          = (compLoop env lo2 eo2 total l p lg2 er2).events ∧
      (compLoop env lo1 eo1 total l p lg1 er1).downloads
          = (compLoop env lo2 eo2 total l p lg2 er2).downloads
  | [], p, lg1, er1, lg2, er2, lo1, eo1, lo2, eo2 => by simp [compLoop]
  | (i, it) :: rest, p, lg1, er1, lg2, er2, lo1, eo1, lo2, eo2 => by
    cases hct : env.cancelTask i
    · cases hf : env.fetchOk i
      · have ih := comp_indep env total rest p
          (write_log lo1 lg1 ("下载失败：" ++ it.filename))
          (write_error eo1 er1 ("下载失败：" ++ it.filename ++ " | URL：" ++ it.url))
          (write_log lo2 lg2 ("下载失败：" ++ it.filename))
          (write_error eo2 er2 ("下载失败：" ++ it.filename ++ " | URL：" ++ it.url))
          lo1 eo1 lo2 eo2
        simpa [compLoop, hct, hf] using ih
      · have ih := comp_indep env total rest (p + 1)
          (write_log lo1 lg1 ("下载成功：" ++ it.filename)) er1
          (write_log lo2 lg2 ("下载成功：" ++ it.filename)) er2 lo1 eo1 lo2 eo2
        simpa [compLoop, hct, hf] using ih
    · have ih := comp_indep env total rest p lg1 er1 lg2 er2 lo1 eo1 lo2 eo2
      simpa [compLoop, hct] using ih

/-! ## Glue lemmas for assembled event streams -/

lemma chainB_glue {p q r : Nat} {l1 l2 : List Ev}
    (h1 : ChainB p l1 q) (h2 : ChainB q l2 r) : ChainB p (l1 ++ l2) r := by
  unfold ChainB at h1 h2 ⊢
  obtain ⟨ha, hb, hc⟩ := List.chain'_append.mp h1
  have h2' : List.Chain' (· ≤ ·) (q :: (l2.map evProcessed ++ [r])) := by
    simpa using h2
  obtain ⟨hd, he⟩ := List.chain'_cons'.mp h2'
  have hshape : ((p :: (l1 ++ l2).map evProcessed) ++ [r])
      = (p :: l1.map evProcessed) ++ (l2.map evProcessed ++ [r]) := by
    simp
  rw [hshape]
  refine List.chain'_append.mpr ⟨ha, he, ?_⟩
  intro x hx y hy
  exact (hc x hx q (by simp)).trans (hd y hy)

lemma getLast_append_singleton (l : List Ev) (a : Ev) : (l ++ [a]).getLast? = some a := by
  rw [List.getLast?_append_cons]
  rfl

lemma accFrom_singleton {p : Nat} {e : Ev} (h : evProcessed e = p + evCounts [e]) :
    AccFrom p [e] :=
  accFrom_cons h (accFrom_nil _)

lemma filter_length_split {α : Type} (f : α → Bool) (l : List α) :
    (l.filter f).length + (l.filter (fun a => !f a)).length = l.length := by
  induction l with
  | nil => simp
  | cons a t ih =>
    cases hf : f a <;> simp [List.filter_cons, hf] <;> omega

/-! ## Claim theorems: Dispatcher accounting -/

/-- C2: across one run, `processed` is incremented exactly once per skip
and per success and never for a failure — every emitted event carries the
count of skip/success events up to and including itself (`AccFrom 0`, so a
fail event carries the current, not-incremented count), the `processed`
values in successive events are non-decreasing, there is exactly one
terminal done event, it comes last, and its `processed` equals the number
of skip events plus success events. -/

theorem run_processed_accounting (env : DispatchEnv) (logOk errOk : Bool)
    (items : List Item) (comp : List Nat) :
    AccFrom 0 (runModel env logOk errOk items comp).events ∧
    List.Chain' (· ≤ ·) ((runModel env logOk errOk items comp).events.map evProcessed) ∧
    (runModel env logOk errOk items comp).events.countP isDoneEv = 1 ∧
    (runModel env logOk errOk items comp).events.getLast?
      = some (.done (runModel env logOk errOk items comp).processed items.length) ∧
    (runModel env logOk errOk items comp).processed
      = (runModel env logOk errOk items comp).events.countP isSkipEv
        + (runModel env logOk errOk items comp).events.countP isSuccessEv := by
  have hsp := scan_processed env logOk items.length items 0 0 []
  obtain ⟨hsz1, hsz2, hsz3⟩ := scan_zero_counts env logOk items.length items 0 0 []
  have hsacc := scan_acc env logOk items.length items 0 0 []
  have hschain := scan_chain env logOk items.length items 0 0 []
  set s := scanLoop env logOk items.length items 0 0 [] with hsdef
  have hcp := comp_processed env logOk errOk items.length (compItemsOf items comp)
    s.processed s.log []
  have hcsucc := comp_succ_count env logOk errOk items.length (compItemsOf items comp)
    s.processed s.log []
  obtain ⟨hcz1, hcz2⟩ := comp_zero_counts env logOk errOk items.length (compItemsOf items comp)
    s.processed s.log []
  have hcacc := comp_acc env logOk errOk items.length (compItemsOf items comp)
    s.processed s.log []
  have hcchain := comp_chain env logOk errOk items.length (compItemsOf items comp)
    s.processed s.log []
  set ci := compItemsOf items comp with hcidef
  set c := compLoop env logOk errOk items.length ci s.processed s.log [] with hcdef
  have hev : (runModel env logOk errOk items comp).events
      = s.events ++ c.events ++ [.done c.processed items.length] := by
    rw [hcdef, hcidef, hsdef]
    rfl
  have hpr : (runModel env logOk errOk items comp).processed = c.processed := by
    rw [hcdef, hcidef, hsdef]
    rfl
  have hsev : evCounts s.events = s.processed := by
    simp [evCounts, hsz1]
    omega
  have hcev : s.processed + evCounts c.events = c.processed := by
    simp [evCounts, hcz1, hcsucc, hcp]
  refine ⟨?_, ?_, ?_, ?_, ?_⟩
  · rw [hev, List.append_assoc]
    refine accFrom_append hsacc ?_
    rw [show (0 + evCounts s.events) = s.processed by rw [Nat.zero_add, hsev]]
    refine accFrom_append hcacc ?_
    rw [hcev]
    exact accFrom_singleton (by simp [evProcessed, evCounts, isSkipEv, isSuccessEv])
  · have hglue := chainB_glue hschain hcchain
    have hglue2 : List.Chain' (· ≤ ·)
        (0 :: ((s.events ++ c.events).map evProcessed ++ [c.processed])) := by
      simpa [ChainB] using hglue
    have htail := (List.chain'_cons'.mp hglue2).2
    rw [hev]
    simpa [evProcessed] using htail
  · rw [hev]
    simp [List.countP_append, hsz3, hcz2, isDoneEv]
  · rw [hev, hpr]
    exact getLast_append_singleton _ _
  · rw [hev, Nat.zero_add] at *
    rw [hev, hpr]
    simp [List.countP_append, hcz1, hsz1, isSkipEv, isSuccessEv]
    omega

/-! ## Projection equations for `runModel` -/

lemma runModel_events (env : DispatchEnv) (lo eo : Bool) (items : List Item) (comp : List Nat) :
    (runModel env lo eo items comp).events
      = (scanLoop env lo items.length items 0 0 []).events
        ++ (compLoop env lo eo items.length (compItemsOf items comp)
            (scanLoop env lo items.length items 0 0 []).processed
            (scanLoop env lo items.length items 0 0 []).log []).events
        ++ [.done (compLoop env lo eo items.length (compItemsOf items comp)
            (scanLoop env lo items.length items 0 0 []).processed
            (scanLoop env lo items.length items 0 0 []).log []).processed items.length] := rfl

lemma runModel_processed (env : DispatchEnv) (lo eo : Bool) (items : List Item)
    (comp : List Nat) :
    (runModel env lo eo items comp).processed
      = (compLoop env lo eo items.length (compItemsOf items comp)
          (scanLoop env lo items.length items 0 0 []).processed
          (scanLoop env lo items.length items 0 0 []).log []).processed := rfl

lemma runModel_submitted (env : DispatchEnv) (lo eo : Bool) (items : List Item)
    (comp : List Nat) :
    (runModel env lo eo items comp).submitted
      = (scanLoop env lo items.length items 0 0 []).submitted := rfl

lemma runModel_downloads (env : DispatchEnv) (lo eo : Bool) (items : List Item)
    (comp : List Nat) :
    (runModel env lo eo items comp).downloads
      = (compLoop env lo eo items.length (compItemsOf items comp)
          (scanLoop env lo items.length items 0 0 []).processed
          (scanLoop env lo items.length items 0 0 []).log []).downloads := rfl

lemma runModel_err (env : DispatchEnv) (lo eo : Bool) (items : List Item) (comp : List Nat) :
    (runModel env lo eo items comp).err
      = (compLoop env lo eo items.length (compItemsOf items comp)
          (scanLoop env lo items.length items 0 0 []).processed
          (scanLoop env lo items.length items 0 0 []).log []).err := rfl

/-- C9: a submitted task that observes the cancel signal at entry returns
a `("cancel", ...)` tuple which the completion loop ignores: only the
non-cancelled completions produce per-item events, download calls,
activity-log lines, error-log lines, or `processed` increments — when the
activity log is writable it holds exactly one line per skip, one per
non-cancelled completion and the final summary line, and the error log
one line per non-cancelled failure — and the single terminal done event
is still emitted last with the counts accumulated so far. -/
theorem cancelled_task_silent (env : DispatchEnv) (logOk errOk : Bool)
    (items : List Item) (comp : List Nat) :
    (runModel env logOk errOk items comp).downloads
      = ((compItemsOf items comp).filter (fun q => !env.cancelTask q.1)).map Prod.fst ∧
    (runModel env logOk errOk items comp).events.countP isSuccessEv
        + (runModel env logOk errOk items comp).events.countP isFailEv
      = ((compItemsOf items comp).filter (fun q => !env.cancelTask q.1)).length ∧
    (runModel env logOk errOk items comp).processed
      = (runModel env logOk errOk items comp).events.countP isSkipEv
        + (((compItemsOf items comp).filter (fun q => !env.cancelTask q.1)).filter
            (fun q => env.fetchOk q.1)).length ∧
    (runModel env logOk errOk items comp).err.length
      = (if errOk
          then (((compItemsOf items comp).filter (fun q => !env.cancelTask q.1)).filter
              (fun q => !env.fetchOk q.1)).length
          else 0) ∧
    (runModel env logOk errOk items comp).log.length
      = (if logOk
          then (runModel env logOk errOk items comp).events.countP isSkipEv
              + ((compItemsOf items comp).filter (fun q => !env.cancelTask q.1)).length + 1
          else 0) ∧
    (runModel env logOk errOk items comp).events.getLast?
      = some (.done (runModel env logOk errOk items comp).processed items.length) ∧
    (runModel env logOk errOk items comp).events.countP isDoneEv = 1 := by
  have hsp := scan_processed env logOk items.length items 0 0 []
  obtain ⟨hsz1, hsz2, hsz3⟩ := scan_zero_counts env logOk items.length items 0 0 []
  have hslog := scan_log_len env logOk items.length items 0 0 []
  set s := scanLoop env logOk items.length items 0 0 [] with hsdef
  have hcp := comp_processed env logOk errOk items.length (compItemsOf items comp)
    s.processed s.log []
  have hcsucc := comp_succ_count env logOk errOk items.length (compItemsOf items comp)
    s.processed s.log []
  have hcfail := comp_fail_count env logOk errOk items.length (compItemsOf items comp)
    s.processed s.log []
  obtain ⟨hcz1, hcz2⟩ := comp_zero_counts env logOk errOk items.length (compItemsOf items comp)
    s.processed s.log []
  have hcdl := comp_downloads env logOk errOk items.length (compItemsOf items comp)
    s.processed s.log []
  have hcerr := comp_err_len env logOk errOk items.length (compItemsOf items comp)
    s.processed s.log []
  have hclog := comp_log_len env logOk errOk items.length (compItemsOf items comp)
    s.processed s.log []
  set ci := compItemsOf items comp with hcidef
  set c := compLoop env logOk errOk items.length ci s.processed s.log [] with hcdef
  have hev : (runModel env logOk errOk items comp).events
      = s.events ++ c.events ++ [.done c.processed items.length] := by
    rw [hcdef, hcidef, hsdef]
    rfl
  have hpr : (runModel env logOk errOk items comp).processed = c.processed := by
    rw [hcdef, hcidef, hsdef]
    rfl
  have hdl : (runModel env logOk errOk items comp).downloads = c.downloads := by
    rw [hcdef, hcidef, hsdef]
    rfl
  have herr : (runModel env logOk errOk items comp).err = c.err := by
    rw [hcdef, hcidef, hsdef]
    rfl
  have hlg : (runModel env logOk errOk items comp).log
      = write_log logOk c.log
          ("完成：" ++ toString c.processed ++ "/" ++ toString items.length) := by
    rw [hcdef, hcidef, hsdef]
    rfl
  refine ⟨?_, ?_, ?_, ?_, ?_, ?_, ?_⟩
  · rw [hdl, hcdl]
  · rw [hev]
    have h1 : List.countP isSuccessEv [Ev.done c.processed items.length] = 0 := by
      simp [isSuccessEv]
    have h2 : List.countP isFailEv [Ev.done c.processed items.length] = 0 := by
      simp [isFailEv]
    simp only [List.countP_append, hsz1, hsz2, hcsucc, hcfail, h1, h2]
    have hsplit := filter_length_split (fun q => env.fetchOk q.1)
      (ci.filter (fun q => !env.cancelTask q.1))
    omega
  · rw [hev, hpr]
    have h3 : List.countP isSkipEv [Ev.done c.processed items.length] = 0 := by
      simp [isSkipEv]
    simp only [List.countP_append, hcz1, h3]
    omega
  · rw [herr, hcerr]
    simp
  · have h4 : List.countP isSkipEv [Ev.done c.processed items.length] = 0 := by
      simp [isSkipEv]
    rw [hlg, write_log_length, hclog, hslog, hev]
    simp only [List.countP_append, hcz1, h4, List.length_nil]
    cases logOk <;> (simp; try omega)
  · rw [hev, hpr]
    exact getLast_append_singleton _ _
  · rw [hev]
    simp [List.countP_append, hsz3, hcz2, isDoneEv]

/-- C7: logging is best-effort and never escalates — a failing log append
returns the log unchanged (the source swallows the exception), and runs
that differ only in whether the activity/error log writes succeed produce
the same `processed` count, the same event stream, the same submissions
and the same download calls. -/

theorem logging_best_effort (env : DispatchEnv) (items : List Item) (comp : List Nat)
    (lo1 eo1 lo2 eo2 : Bool) :
    (∀ (lg : List String) (line : String), write_log false lg line = lg) ∧
    (∀ (er : List String) (line : String), write_error false er line = er) ∧
    (runModel env lo1 eo1 items comp).processed
        = (runModel env lo2 eo2 items comp).processed ∧
    (runModel env lo1 eo1 items comp).events = (runModel env lo2 eo2 items comp).events ∧
    (runModel env lo1 eo1 items comp).submitted
        = (runModel env lo2 eo2 items comp).submitted ∧
    (runModel env lo1 eo1 items comp).downloads
        = (runModel env lo2 eo2 items comp).downloads := by
  obtain ⟨hp, he, hsub⟩ := scan_indep env items.length items 0 0 [] [] lo1 lo2
  obtain ⟨hcp, hce, hcd⟩ := comp_indep env items.length (compItemsOf items comp)
    (scanLoop env lo2 items.length items 0 0 []).processed
    (scanLoop env lo1 items.length items 0 0 []).log []
    (scanLoop env lo2 items.length items 0 0 []).log [] lo1 eo1 lo2 eo2
  refine ⟨fun lg line => rfl, fun er line => rfl, ?_, ?_, ?_, ?_⟩
  · rw [runModel_processed, runModel_processed, hp, hcp]
  · rw [runModel_events, runModel_events, he, hp, hce, hcp]
  · rw [runModel_submitted, runModel_submitted, hsub]
  · rw [runModel_downloads, runModel_downloads, hp, hcd]

lemma compItemsOf_fst_mem (items : List Item) (comp : List Nat) :
    ∀ q ∈ compItemsOf items comp, q.1 ∈ comp := by
  intro q hq
  rcases List.mem_filterMap.mp hq with ⟨i, hi, hf⟩
  rcases Option.map_eq_some'.mp hf with ⟨it, hit, hq2⟩
  subst hq2
  exact hi

/-- C5: the cancel signal is checked before each pre-dispatch decision —
once it is set (monotonically, from the step at which some index `k` reads
it as set), no item at or beyond `k` is submitted, downloaded, or counted
as skipped; in particular when the signal is set before any item is
scanned (`k = 0`) no download is attempted and the run emits only the
terminal done event reporting `processed = 0`. -/

theorem cancellation_stops_scan (env : DispatchEnv) (logOk errOk : Bool)
    (items : List Item) (comp : List Nat) (k : Nat)
    (hmono : ∀ a b : Nat, a ≤ b → env.cancelScan a = true → env.cancelScan b = true)
    (hk : env.cancelScan k = true)
    (hcomp : comp.Perm (runModel env logOk errOk items comp).submitted) :
    (∀ j ∈ (runModel env logOk errOk items comp).submitted, j < k) ∧
    (∀ j ∈ (runModel env logOk errOk items comp).downloads, j < k) ∧
    (runModel env logOk errOk items comp).events.countP isSkipEv ≤ k ∧
    (k = 0 →
      (runModel env logOk errOk items comp).processed = 0 ∧
      (runModel env logOk errOk items comp).downloads = [] ∧
      (runModel env logOk errOk items comp).events = [.done 0 items.length]) := by
  have hsub : ∀ j ∈ (runModel env logOk errOk items comp).submitted, j < k := by
    rw [runModel_submitted]
    exact fun j hj => scan_submitted_lt env logOk items.length k hmono hk items 0 0 [] j hj
  refine ⟨hsub, ?_, ?_, ?_⟩
  · rw [runModel_downloads]
    intro j hj
    rw [comp_downloads env logOk errOk items.length (compItemsOf items comp)
      (scanLoop env logOk items.length items 0 0 []).processed
      (scanLoop env logOk items.length items 0 0 []).log []] at hj
    rcases List.mem_map.mp hj with ⟨q, hqmem, rfl⟩
    have hq1 : q.1 ∈ comp :=
      compItemsOf_fst_mem items comp q (List.mem_of_mem_filter hqmem)
    exact hsub _ (hcomp.mem_iff.mp hq1)
  · rw [runModel_events]
    have hscle := scan_skip_le env logOk items.length k hmono hk items 0 0 []
    have hcz1 := (comp_zero_counts env logOk errOk items.length (compItemsOf items comp)
      (scanLoop env logOk items.length items 0 0 []).processed
      (scanLoop env logOk items.length items 0 0 []).log []).1
    have h3 : List.countP isSkipEv
        [Ev.done (compLoop env logOk errOk items.length (compItemsOf items comp)
          (scanLoop env logOk items.length items 0 0 []).processed
          (scanLoop env logOk items.length items 0 0 []).log []).processed items.length]
        = 0 := by simp [isSkipEv]
    simp only [List.countP_append, hcz1, h3]
    omega
  · intro hk0
    subst hk0
    have hsall : scanLoop env logOk items.length items 0 0 [] = ⟨0, [], [], []⟩ :=
      scan_cancel_now env logOk items.length items 0 0 [] hk
    have hcompnil : comp = [] := by
      have hperm := hcomp
      rw [runModel_submitted, hsall] at hperm
      exact hperm.eq_nil
    subst hcompnil
    refine ⟨?_, ?_, ?_⟩
    · rw [runModel_processed, hsall]
      simp [compItemsOf, compLoop]
    · rw [runModel_downloads, hsall]
      simp [compItemsOf, compLoop]
    · rw [runModel_events, hsall]
      simp [compItemsOf, compLoop]

/-- C5 witness: with the cancel signal already set before the scan starts,
a two-item run attempts no download and reports `processed = 0`. -/

theorem cancellation_stops_scan_witness :
    (runModel envCancelW true true itemsW []).processed = 0 ∧
    (runModel envCancelW true true itemsW []).downloads = [] ∧
    (runModel envCancelW true true itemsW []).events = [Ev.done 0 itemsW.length] := by
  have h := cancellation_stops_scan envCancelW true true itemsW [] 0
    (fun a b hab ha => rfl) rfl (by decide)
  exact h.2.2.2 rfl

lemma hb_cons {tr : List Act} {a b : Act} (c : Act) (h : hb tr a b) : hb (c :: tr) a b := by
  obtain ⟨kp, lp, hkl, hk, hl⟩ := h
  exact ⟨kp + 1, lp + 1, by omega, by simpa using hk, by simpa using hl⟩

lemma hb_here {tr : List Act} {a b : Act} (hmem : b ∈ tr) : hb (a :: tr) a b := by
  obtain ⟨i, hi⟩ := List.mem_iff_getElem?.mp hmem
  exact ⟨0, i + 1, by omega, by simp, by simpa using hi⟩

lemma scanTrace_mem_idx (env : DispatchEnv) :
    ∀ (n m : Nat), ∀ a ∈ scanTrace env n m, m ≤ actIdx a
  | 0, m => by simp [scanTrace]
  | Nat.succ n, m => by
    intro a ha
    cases hc : env.cancelScan m
    · cases he : env.existsAt m
      · simp only [scanTrace, hc, he, if_false, Bool.false_eq_true, List.mem_cons] at ha
        rcases ha with rfl | rfl | rfl | ha
        · simp [actIdx]
        · simp [actIdx]
        · simp [actIdx]
        · have := scanTrace_mem_idx env n (m + 1) a ha
          omega
      · simp only [scanTrace, hc, he, if_false, if_true, Bool.false_eq_true,
          List.mem_cons] at ha
        rcases ha with rfl | rfl | rfl | ha
        · simp [actIdx]
        · simp [actIdx]
        · simp [actIdx]
        · have := scanTrace_mem_idx env n (m + 1) a ha
          omega
    · simp only [scanTrace, hc, if_true, List.mem_cons] at ha
      rcases ha with rfl | ha
      · simp [actIdx]
      · simp at ha

lemma scanTrace_own_check (env : DispatchEnv) :
    ∀ (n m ii : Nat), Act.submit ii ∈ scanTrace env n m →
      hb (scanTrace env n m) (Act.existCheck ii) (Act.submit ii)
  | 0, m, ii => by simp [scanTrace]
  | Nat.succ n, m, ii => by
    intro hmem
    cases hc : env.cancelScan m
    · cases he : env.existsAt m
      · simp only [scanTrace, hc, he, if_false, Bool.false_eq_true] at hmem ⊢
        by_cases hii : ii = m
        · subst hii
          exact ⟨1, 2, by omega, by simp, by simp⟩
        · have hrest : Act.submit ii ∈ scanTrace env n (m + 1) := by
            simp only [List.mem_cons] at hmem
            rcases hmem with h | h | h | h
            · exact Act.noConfusion h
            · exact Act.noConfusion h
            · exact absurd (Act.submit.inj h) hii
            · exact h
          exact hb_cons _ (hb_cons _ (hb_cons _ (scanTrace_own_check env n (m + 1) ii hrest)))
      · simp only [scanTrace, hc, he, if_false, if_true, Bool.false_eq_true] at hmem ⊢
        have hrest : Act.submit ii ∈ scanTrace env n (m + 1) := by
          simp only [List.mem_cons] at hmem
          rcases hmem with h | h | h | h
          · exact Act.noConfusion h
          · exact Act.noConfusion h
          · exact Act.noConfusion h
          · exact h
        exact hb_cons _ (hb_cons _ (hb_cons _ (scanTrace_own_check env n (m + 1) ii hrest)))
    · simp [scanTrace, hc] at hmem

lemma scanTrace_cross (env : DispatchEnv) :
    ∀ (n m ii jj : Nat), ii < jj → Act.submit ii ∈ scanTrace env n m →
      Act.existCheck jj ∈ scanTrace env n m →
      hb (scanTrace env n m) (Act.submit ii) (Act.existCheck jj)
  | 0, m, ii, jj => by simp [scanTrace]
  | Nat.succ n, m, ii, jj => by
    intro hij hsub hec
    cases hc : env.cancelScan m
    · cases he : env.existsAt m
      · simp only [scanTrace, hc, he, if_false, Bool.false_eq_true] at hsub hec ⊢
        by_cases hii : ii = m
        · subst hii
          have hjr : Act.existCheck jj ∈ scanTrace env n (ii + 1) := by
            simp only [List.mem_cons] at hec
            rcases hec with h | h | h | h
            · exact Act.noConfusion h
            · exact absurd (Act.existCheck.inj h) (by omega)
            · exact Act.noConfusion h
            · exact h
          exact hb_cons _ (hb_cons _ (hb_here hjr))
        · have hsr : Act.submit ii ∈ scanTrace env n (m + 1) := by
            simp only [List.mem_cons] at hsub
            rcases hsub with h | h | h | h
            · exact Act.noConfusion h
            · exact Act.noConfusion h
            · exact absurd (Act.submit.inj h) hii
            · exact h
          have hiim : m + 1 ≤ ii := scanTrace_mem_idx env n (m + 1) _ hsr
          have hjr : Act.existCheck jj ∈ scanTrace env n (m + 1) := by
            simp only [List.mem_cons] at hec
            rcases hec with h | h | h | h
            · exact Act.noConfusion h
            · exact absurd (Act.existCheck.inj h) (by omega)
            · exact Act.noConfusion h
            · exact h
          exact hb_cons _ (hb_cons _ (hb_cons _
            (scanTrace_cross env n (m + 1) ii jj hij hsr hjr)))
      · simp only [scanTrace, hc, he, if_false, if_true, Bool.false_eq_true] at hsub hec ⊢
        have hsr : Act.submit ii ∈ scanTrace env n (m + 1) := by
          simp only [List.mem_cons] at hsub
          rcases hsub with h | h | h | h
          · exact Act.noConfusion h
          · exact Act.noConfusion h
          · exact Act.noConfusion h
          · exact h
        have hiim : m + 1 ≤ ii := scanTrace_mem_idx env n (m + 1) _ hsr
        have hjr : Act.existCheck jj ∈ scanTrace env n (m + 1) := by
          simp only [List.mem_cons] at hec
          rcases hec with h | h | h | h
          · exact Act.noConfusion h
          · exact absurd (Act.existCheck.inj h) (by omega)
          · exact Act.noConfusion h
          · exact h
        exact hb_cons _ (hb_cons _ (hb_cons _
          (scanTrace_cross env n (m + 1) ii jj hij hsr hjr)))
    · simp [scanTrace, hc] at hsub

/-- C3 counterexample: with two items whose destinations do not exist, the
trace is `[cancelCheck 0, existCheck 0, submit 0, cancelCheck 1,
existCheck 1, submit 1]` — item 0's task is submitted at position 2,
before item 1's existence check at position 4, refuting "every item's
existence check happens before the first task is submitted". -/

theorem scan_submit_before_later_check_cex :
    (scanTrace envScanW 2 0)[2]? = some (Act.submit 0) ∧
    (scanTrace envScanW 2 0)[4]? = some (Act.existCheck 1) ∧
    ¬ ((4 : Nat) < 2) := by decide

/-- C3 (amended): the pre-dispatch scan is a single sequential loop, but
it interleaves existence checks with submissions in item order: each
item's existence check happens before that item's own submission, while an
earlier item's submission happens before every later item's existence
check (so submitted tasks may already be executing while the scan is still
checking later items). -/

theorem scan_interleaving_order (env : DispatchEnv) (n i j : Nat) :
    (Act.submit i ∈ scanTrace env n 0 →
      hb (scanTrace env n 0) (Act.existCheck i) (Act.submit i)) ∧
    (i < j → Act.submit i ∈ scanTrace env n 0 → Act.existCheck j ∈ scanTrace env n 0 →
      hb (scanTrace env n 0) (Act.submit i) (Act.existCheck j)) :=
  ⟨fun hmem => scanTrace_own_check env n 0 i hmem,
   fun hij hsub hec => scanTrace_cross env n 0 i j hij hsub hec⟩

/-- C3 witness: in the two-item trace, item 0's existence check precedes
its submission, and that submission precedes item 1's existence check. -/

theorem scan_interleaving_order_witness :
    hb (scanTrace envScanW 2 0) (Act.existCheck 0) (Act.submit 0) ∧
    hb (scanTrace envScanW 2 0) (Act.submit 0) (Act.existCheck 1) := by
  refine ⟨(scan_interleaving_order envScanW 2 0 0).1 (by decide),
    (scan_interleaving_order envScanW 2 0 1).2 (by decide) (by decide) (by decide)⟩

/-- C6: every fatal configuration error (unreadable input, absent sheet,
missing required header columns) aborts before any dispatch and before the
output directory is created; in particular a header without the `imageUrl`
column yields a missing-columns error that names `imageUrl`, with no
directory creation and no per-item processing. -/

theorem fatal_config_aborts (wb : Workbook) (ws : Sheet) (sheet out : String)
    (sr : Nat) (er : Option Nat) (lim : Option Nat) (env : DispatchEnv)
    (lo eo : Bool) (comp : List Nat)
    (hws : lookupSheet wb sheet = some ws)
    (hcol : "imageUrl" ∉ (headerMap ws.header).map Prod.fst) :
    (∀ (input : Option Workbook) (sn od : String) (sr2 : Nat) (er2 : Option Nat)
        (lim2 : Option Nat) (e : FatalErr),
      (process_excel_model input sn od sr2 er2 lim2 env lo eo comp).2 = .error e →
      (process_excel_model input sn od sr2 er2 lim2 env lo eo comp).1 = []) ∧
    (∃ missing, process_excel_model (some wb) sheet out sr er lim env lo eo comp
        = ([], .error (.missingColumns missing)) ∧ "imageUrl" ∈ missing) := by
  constructor
  · intro input sn od sr2 er2 lim2 e herr
    cases input with
    | none => rfl
    | some wb2 =>
      simp only [process_excel_model] at herr ⊢
      cases hls : lookupSheet wb2 sn with
      | none => simp [hls]
      | some ws2 =>
        cases hfh : find_header_indices ws2.header with
        | error e2 => simp [hls, hfh]
        | ok hm => simp [hls, hfh] at herr
  · have hdg : dictGet (headerMap ws.header) "imageUrl" = none := by
      simp only [dictGet, Option.map_eq_none']
      rw [List.find?_eq_none]
      intro q hq hbeq
      have hq1 : q.1 = "imageUrl" := by simpa using hbeq
      rw [List.mem_reverse] at hq
      exact hcol (hq1 ▸ List.mem_map_of_mem Prod.fst hq)
    have hmem : "imageUrl" ∈ requiredColumns.filter
        (fun c => (dictGet (headerMap ws.header) c).isNone) := by
      apply List.mem_filter.mpr
      refine ⟨by simp [requiredColumns], by simp [hdg]⟩
    have hne : ¬ ((requiredColumns.filter
        (fun c => (dictGet (headerMap ws.header) c).isNone)).isEmpty = true) := by
      intro hemp
      rw [List.isEmpty_iff] at hemp
      rw [hemp] at hmem
      simp at hmem
    have hfh : find_header_indices ws.header
        = .error (.missingColumns (requiredColumns.filter
            (fun c => (dictGet (headerMap ws.header) c).isNone))) := by
      unfold find_header_indices
      rw [if_neg hne]
    refine ⟨requiredColumns.filter (fun c => (dictGet (headerMap ws.header) c).isNone),
      ?_, hmem⟩
    simp only [process_excel_model, hws, hfh]

/-- C6 witness: a workbook whose header lacks `imageUrl` aborts with a
missing-columns error naming `imageUrl` and performs no directory
creation. -/

theorem fatal_config_aborts_witness :
    ∃ missing, process_excel_model (some wbMissingW) "Sheet1" "images" 2 none none
        envPlainW true true []
      = ([], .error (.missingColumns missing)) ∧ "imageUrl" ∈ missing :=
  (fatal_config_aborts wbMissingW
    ⟨[some "一级", some "二级1", some "二级2", some "三级", some "品牌", some "条码"], []⟩
    "Sheet1" "images" 2 none none envPlainW true true []
    (by decide) (by decide)).2

/-- C8: the effective pool size is `max(1, concurrency or 1)` — the
default is 4, any supplied value below 1 (or absent) is raised to 1, a
supplied value ≥ 1 is used as is — and in every state reachable from an
idle pool no more than that many fetches are simultaneously in flight. -/

theorem concurrency_bound :
    max_workers (some defaultConcurrency) = 4 ∧
    max_workers none = 1 ∧
    (∀ c : Int, c < 1 → max_workers (some c) = 1) ∧
    (∀ c : Int, 1 ≤ c → max_workers (some c) = c) ∧
    (∀ c : Option Int, 1 ≤ max_workers c) ∧
    (∀ (w n : Nat) (s : PoolState), PoolReachable w ⟨n, 0, 0⟩ s → s.running ≤ w) := by
  refine ⟨by decide, by decide, ?_, ?_, ?_, ?_⟩
  · intro c hc
    simp only [max_workers, pyOrOne]
    by_cases hc0 : c = 0
    · simp [hc0]
    · rw [if_neg hc0]
      exact max_eq_left (by omega)
  · intro c hc
    simp only [max_workers, pyOrOne]
    rw [if_neg (by omega)]
    exact max_eq_right hc
  · intro c
    unfold max_workers
    exact le_max_left 1 _
  · intro w n s h
    induction h with
    | refl => simp
    | tail hsteps step ih =>
      cases step with
      | start p r f hlt => simpa using hlt
      | finish p r f =>
        simp only at ih ⊢
        omega

/-- C8 witness: a negative bound is raised to 1, a supplied 16 stays 16,
and a state with one running task reached under bound 4 respects it. -/

theorem concurrency_bound_witness :
    max_workers (some (-5)) = 1 ∧ max_workers (some 16) = 16 ∧
    (PoolState.mk 0 1 0).running ≤ 4 := by
  refine ⟨concurrency_bound.2.2.1 (-5) (by decide),
    concurrency_bound.2.2.2.1 16 (by decide),
    concurrency_bound.2.2.2.2.2 4 1 ⟨0, 1, 0⟩
      (Relation.ReflTransGen.single (PoolStep.start 0 0 0 (by decide)))⟩
